import Mathlib

/-!
Verification of the CPALMS standards-collection script (`scraper.py`).

The script is shallowly embedded: strings are `String`/`List Char`, the
SQLite store is a list of rows keyed by `standard_id`, the HTTP transport,
the HTML parser and the per-call persistence outcomes are oracles packaged
in a `World` record, and Python exceptions are `Except`/`Option` values.
Timestamps (`CURRENT_TIMESTAMP`) are modelled as naturals supplied by the
world; the surrogate `id INTEGER PRIMARY KEY AUTOINCREMENT` column and the
log's timestamp column are omitted as they carry no claim-relevant data.
-/

namespace Cpalms

/-! ## Keyword extraction (`extract_keywords`)

`re.findall(r'\b[a-zA-Z]{3,}\b', text.lower())` matches exactly the maximal
runs of word characters (ASCII letters, digits, underscore; the embedding
restricts Python's Unicode word class to ASCII) that consist solely of
letters and have length at least 3.  `wordRunsF` computes the maximal
word-character runs with an explicit fuel so that it is structurally
recursive and kernel-reducible; every claim needs only soundness of the
runs, which holds for any fuel. -/

def isWordChar (c : Char) : Bool :=
  c.isAlpha || c.isDigit || c == '_'

def wordRunsF : Nat → List Char → List (List Char)
  | 0, _ => []
  | _ + 1, [] => []
  | fuel + 1, c :: cs =>
    if isWordChar c then
      ((c :: cs).takeWhile isWordChar) :: wordRunsF fuel (cs.dropWhile isWordChar)
    else
      wordRunsF fuel cs

def wordRuns (l : List Char) : List (List Char) :=
  wordRunsF l.length l

/-- `text.lower()` (ASCII characters; claims only involve ASCII). -/
def pyLower (l : List Char) : List Char :=
  l.map Char.toLower

/-- The token list produced by `re.findall(r'\b[a-zA-Z]{3,}\b', text.lower())`. -/
def tokenize (text : List Char) : List (List Char) :=
  (wordRuns (pyLower text)).filter (fun r => decide (3 ≤ r.length) && r.all Char.isAlpha)

def stop_words : List (List Char) :=
  ["the", "and", "or", "but", "in", "on", "at", "to", "for", "of",
   "with", "by", "a", "an"].map String.toList

/-- `extract_keywords`: tokenize, drop stop words, `list(set(...))[:20]`.
CPython's set-iteration order is modelled by `List.dedup`; the claims proved
below depend only on which elements survive, never on their order. -/
def extract_keywords (text : List Char) : List (List Char) :=
  (((tokenize text).filter (fun w => decide (w ∉ stop_words))).dedup).take 20

/-! ## Data model and persistence (`setup_database`, `save_standards_to_db`,
`log_scraping_activity`) -/

/-- A scraped standard dict as built by `extract_standard_data`. -/
structure Record where
  standard_id : String
  subject : String
  grade : String
  title : String
  description : String
  keywords : List (List Char)
  url : Option String
deriving DecidableEq

/-- One row of the `standards` table.  Columns not listed by the INSERT get
their schema defaults: `state TEXT DEFAULT 'FL'`, `created_at TIMESTAMP
DEFAULT CURRENT_TIMESTAMP`, and NULL for the rest. -/
structure Row where
  standard_id : String
  state : Option String
  subject : Option String
  grade : Option String
  domain : Option String
  cluster : Option String
  title : Option String
  description : Option String
  clarifications : Option String
  keywords : Option (List (List Char))
  url : Option String
  created_at : Nat
deriving DecidableEq

/-- The row written by the 7-column `INSERT OR REPLACE` at time `now`. -/
def rowOfRecord (r : Record) (now : Nat) : Row :=
  ⟨r.standard_id, some "FL", some r.subject, some r.grade, none, none,
   some r.title, some r.description, none, some r.keywords, r.url, now⟩

/-- SQLite `INSERT OR REPLACE` on the UNIQUE `standard_id` column: the
conflicting row is deleted and the fresh row inserted. -/
def insert_or_replace (store : List Row) (r : Record) (now : Nat) : List Row :=
  (store.filter (fun row => !(row.standard_id == r.standard_id))) ++ [rowOfRecord r now]

/-- One row of the `scraping_log` table (timestamp column omitted). -/
structure LogEntry where
  subject : String
  grade : String
  status : String
  records_collected : Nat
  notes : String
deriving DecidableEq

def successEntry (subject grade : String) (n : Nat) : LogEntry :=
  ⟨subject, grade, "success", n, ""⟩

def noDataEntry (subject grade : String) : LogEntry :=
  ⟨subject, grade, "no_data", 0, "No standards found"⟩

def errEntry (subject grade notes : String) : LogEntry :=
  ⟨subject, grade, "error", 0, notes⟩

/-! ## Fetch-and-parse layer (`scrape_standards_by_subject_grade`,
`extract_standard_data`) -/

/-- A parsed `standard-item` element: the four sub-elements looked up by
`extract_standard_data` (each `find` may return nothing). -/
structure Item where
  standard_id : Option String
  title : Option String
  description : Option String
  href : Option String
deriving DecidableEq

/-- Outcome of `session.get` + `raise_for_status` + HTML parsing for one
unit: a parsed item list, a `requests.RequestException`, or a
non-transport exception raised while building the soup. -/
inductive FetchResult where
  | ok (items : List Item)
  | transportError (msg : String)
  | parseError (msg : String)
deriving DecidableEq

/-- Python `str.strip()` on the default whitespace set. -/
def pyStrip (s : String) : String :=
  ⟨(((s.toList.dropWhile Char.isWhitespace).reverse).dropWhile Char.isWhitespace).reverse⟩

/-- `extract_standard_data`: an item missing any of identifier, title or
description yields `None`; otherwise the record is built, with keywords
derived from the raw description text.  Joining `href` with the base URL is
transport-collaborator work and is modelled as the raw link. -/
def extract_standard_data (subject grade : String) (element : Item) : Option Record :=
  match element.standard_id, element.title, element.description with
  | some i, some t, some d =>
      some ⟨pyStrip i, subject, grade, pyStrip t, pyStrip d,
            extract_keywords d.toList, element.href⟩
  | _, _, _ => none

/-- `scrape_standards_by_subject_grade`.  The second component counts the
`time.sleep(self.request_delay)` calls executed.  A `RequestException` is
caught inside this function (the accumulated — empty — list is returned);
the sleep sits after the element loop inside the `try`, so any exception
skips it.  A non-transport parse exception propagates to the caller. -/
def scrape_standards_by_subject_grade (fetch : String → String → FetchResult)
    (subject grade : String) : Except String (List Record) × Nat :=
  match fetch subject grade with
  | .ok elements => (.ok (elements.filterMap (extract_standard_data subject grade)), 1)
  | .transportError _ => (.ok [], 0)
  | .parseError msg => (.error msg, 0)

/-! ## Orchestration (`collect_all_standards`) -/

/-- The oracles a run consumes: the transport/parser outcome per unit,
whether an individual `INSERT OR REPLACE` raises (caught per record),
whether a given log insert raises (and with what message), and the clock. -/
structure World where
  fetch : String → String → FetchResult
  upsertFail : Record → Bool
  logFail : LogEntry → Option String
  now : Nat

/-- `save_standards_to_db`: per-record `INSERT OR REPLACE`, each failure
caught and skipped, the batch proceeding. -/
def save_standards_to_db (w : World) (store : List Row) (standards : List Record) :
    List Row :=
  if standards.isEmpty then store
  else standards.foldl (fun st r => if w.upsertFail r then st else insert_or_replace st r w.now) store

/-- The database file: the `standards` table and the `scraping_log` table. -/
structure DB where
  standards : List Row
  log : List LogEntry
deriving DecidableEq

def appendLog (db : DB) (e : LogEntry) : DB :=
  ⟨db.standards, db.log ++ [e]⟩

/-- The body of the per-unit `try` block in `collect_all_standards`: scrape,
and on a non-empty result save then log `success`, else log `no_data`.
Returns the database state and the records counted into the grand total at
the moment control leaves the block, plus the pending exception message if
one was raised (from the scrape or from a failing log insert — note that
`total_collected` is incremented before the success log runs). -/
def tryBody (w : World) (db : DB) (subject grade : String) :
    (DB × Nat) × Option String :=
  match (scrape_standards_by_subject_grade w.fetch subject grade).1 with
  | .error msg => ((db, 0), some msg)
  | .ok standards =>
    if standards.isEmpty then
      match w.logFail (noDataEntry subject grade) with
      | some msg => ((db, 0), some msg)
      | none => ((appendLog db (noDataEntry subject grade), 0), none)
    else
      let db1 : DB := ⟨save_standards_to_db w db.standards standards, db.log⟩
      match w.logFail (successEntry subject grade standards.length) with
      | some msg => ((db1, standards.length), some msg)
      | none =>
          ((appendLog db1 (successEntry subject grade standards.length),
            standards.length), none)

/-- One iteration of the nested loop in `collect_all_standards`: the `try`
block, then the `except Exception` handler which logs an `error` entry; a
failure of that very insert propagates. -/
def unitStep (w : World) (db : DB) (subject grade : String) :
    Except String (DB × Nat) :=
  match tryBody w db subject grade with
  | (res, none) => .ok res
  | ((db1, n), some msg) =>
    match w.logFail (errEntry subject grade msg) with
    | some msg2 => .error msg2
    | none => .ok (appendLog db1 (errEntry subject grade msg), n)

/-- The subjects-outer / grades-inner iteration order of the two `for` loops. -/
def unitPairs : List String → List String → List (String × String)
  | [], _ => []
  | s :: ss, grades => grades.map (fun g => (s, g)) ++ unitPairs ss grades

def collectGo (w : World) : List (String × String) → DB → Nat → Except String (DB × Nat)
  | [], db, total => .ok (db, total)
  | p :: ps, db, total =>
    match unitStep w db p.1 p.2 with
    | .error msg => .error msg
    | .ok (db1, n) => collectGo w ps db1 (total + n)

/-- `collect_all_standards` over the given focus lists, starting from the
database state `db0` (schema creation is idempotent and state-preserving on
an existing file).  Returns the final database and `total_collected`, or
the message of a propagating exception. -/
def collect_all_standards (w : World) (subjects grades : List String) (db0 : DB) :
    Except String (DB × Nat) :=
  collectGo w (unitPairs subjects grades) db0 0

/-- The single log entry a unit contributes when no log insert fails. -/
def unitEntry (w : World) (subject grade : String) : LogEntry :=
  match (scrape_standards_by_subject_grade w.fetch subject grade).1 with
  | .error msg => errEntry subject grade msg
  | .ok standards =>
      if standards.isEmpty then noDataEntry subject grade
      else successEntry subject grade standards.length

/-! ## API mode (`get_standards_via_api`, `parse_case_competencies`) -/

/-- A CASE `CFDocument` as consumed by the loop: its title and identifier. -/
structure CfDoc where
  title : String
  identifier : String
deriving DecidableEq

/-- A CASE `CFItem`, with the fields the parser reads (each `.get` has a
default, so the fields are total). -/
structure CaseItem where
  humanCodingScheme : String
  abbreviatedStatement : String
  fullStatement : String
  docTitle : String
  educationLevel : List String
deriving DecidableEq

/-- An API-mode standard dict (no url field). -/
structure CaseRecord where
  standard_id : String
  title : String
  description : String
  subject : String
  grade : String
  keywords : List (List Char)
deriving DecidableEq

def tailsOf : List Char → List (List Char)
  | [] => [[]]
  | c :: cs => (c :: cs) :: tailsOf cs

/-- Python's `pat in s` substring test. -/
def containsSub (s pat : String) : Bool :=
  (tailsOf s.toList).any (fun t => pat.toList.isPrefixOf t)

/-- `extract_subject`: first space-delimited token of the document title. -/
def extract_subject (item : CaseItem) : String :=
  ⟨item.docTitle.toList.takeWhile (fun c => !(c == ' '))⟩

/-- `extract_grade`: first education level, or the empty string. -/
def extract_grade (item : CaseItem) : String :=
  item.educationLevel.headD ""

/-- The message of the exception `extract_keywords_from_case` raises. -/
def attributeErrorMsg : String :=
  "AttributeError: CPALMSAPICollector has no attribute extract_keywords"

/-- `extract_keywords_from_case` calls `self.extract_keywords(text)`, but
`CPALMSAPICollector` defines no such method and has no base class, so
evaluating it raises `AttributeError` for every item. -/
def extract_keywords_from_case (_item : CaseItem) : Except String (List (List Char)) :=
  .error attributeErrorMsg

/-- `parse_case_competencies` builds one record per item in order; the
keyword call raises on the first item, so any non-empty item list raises. -/
def parse_case_competencies : List CaseItem → Except String (List CaseRecord)
  | [] => .ok []
  | item :: rest =>
    match extract_keywords_from_case item with
    | .error e => .error e
    | .ok kws =>
      match parse_case_competencies rest with
      | .error e => .error e
      | .ok tail =>
        .ok (⟨item.humanCodingScheme, item.abbreviatedStatement, item.fullStatement,
              extract_subject item, extract_grade item, kws⟩ :: tail)

/-- Transport oracles for API mode: the `CFDocuments` fetch and the
per-document `CFItems` fetch. -/
structure ApiWorld where
  getDocuments : Except String (List CfDoc)
  getItems : String → Except String (List CaseItem)

/-- The document loop of `get_standards_via_api`.  The single
`except requests.RequestException` wraps the whole loop, so a failing
`CFItems` fetch discards the accumulator and returns the empty list —
while the `AttributeError` raised when parsing a fetched item is not a
`RequestException` and escapes to the caller (`.error`). -/
def apiGo (w : ApiWorld) : List CfDoc → List CaseRecord → Except String (List CaseRecord)
  | [], acc => .ok acc
  | d :: ds, acc =>
    if containsSub d.title "Florida" then
      match w.getItems d.identifier with
      | .error _ => .ok []
      | .ok items =>
        match parse_case_competencies items with
        | .error e => .error e
        | .ok recs => apiGo w ds (acc ++ recs)
    else
      apiGo w ds acc

/-- `get_standards_via_api`: `.ok` is a normal return (a caught
`RequestException` included), `.error` an exception propagating to the
caller. -/
def get_standards_via_api (w : ApiWorld) : Except String (List CaseRecord) :=
  match w.getDocuments with
  | .error _ => .ok []
  | .ok docs => apiGo w docs []

/-! ## Concrete fixtures used by counterexamples and witnesses -/

def dbEmpty : DB := ⟨[], []⟩

def itemGood : Item :=
  ⟨some "MA.3.A.1", some "Add numbers", some "Add whole numbers", none⟩

def itemBad : Item :=
  ⟨some "MA.3.A.2", none, some "Subtract whole numbers", none⟩

/-- `extract_standard_data "Mathematics" "3" itemGood` evaluates to this. -/
def recGood : Record :=
  ⟨"MA.3.A.1", "Mathematics", "3", "Add numbers", "Add whole numbers",
   ["add".toList, "whole".toList, "numbers".toList], none⟩

def recBad : Record :=
  ⟨"BAD", "Mathematics", "3", "Bad title", "Bad description", [], none⟩

/-- Every fetch dies with a transport error; persistence is healthy. -/
def worldTransport : World :=
  ⟨fun _ _ => .transportError "connection refused", fun _ => false, fun _ => none, 0⟩

/-- Fetch succeeds with one good item, the upsert of `recBad` raises, and
every `success` log insert raises while other log inserts succeed. -/
def worldLogFlaky : World :=
  ⟨fun _ _ => .ok [itemGood],
   fun r => r.standard_id == "BAD",
   fun e => if e.status == "success" then some "log write failed" else none,
   0⟩

/-- Fetch succeeds with no items, and every `no_data` log insert raises
while other log inserts succeed. -/
def worldNoDataFlaky : World :=
  ⟨fun _ _ => .ok [],
   fun _ => false,
   fun e => if e.status == "no_data" then some "log write failed" else none,
   0⟩

def caseItem1 : CaseItem :=
  ⟨"MA.K.CR.1", "Counting", "Count to ten", "Mathematics Florida Standards", ["K"]⟩

def apiDocs : List CfDoc :=
  [⟨"Florida Mathematics Standards", "D1"⟩, ⟨"Florida ELA Standards", "D2"⟩]

def apiDocsRev : List CfDoc :=
  [⟨"Florida ELA Standards", "D2"⟩, ⟨"Florida Mathematics Standards", "D1"⟩]

/-- D1's item fetch succeeds with one item, D2's dies with a transport
error. -/
def apiItems (i : String) : Except String (List CaseItem) :=
  if i == "D1" then .ok [caseItem1] else .error "timeout"

/-- D1 (with its one item) is listed before the failing D2. -/
def apiWorldFlaky : ApiWorld :=
  ⟨.ok apiDocs, apiItems⟩

/-- The failing D2 is listed before D1, so no item is ever parsed. -/
def apiWorldFlaky2 : ApiWorld :=
  ⟨.ok apiDocsRev, apiItems⟩

def recOld : Record :=
  ⟨"MA.3.A.1", "Mathematics", "3", "Old title", "Old description", [], some "u1"⟩

def recNew : Record :=
  ⟨"MA.3.A.1", "Mathematics", "4", "New title", "New description", ["new".toList], none⟩

/-- A stored row carrying values in every column the upsert does not list. -/
def rowRich : Row :=
  ⟨"MA.3.A.1", some "FL", some "Mathematics", some "3", some "Algebraic Reasoning",
   some "Cluster A", some "Old title", some "Old description", some "Clarification text",
   some [], some "u1", 5⟩

/-- Twenty-two distinct candidate tokens. -/
def kw22a : String :=
  "cat dog fox owl bee ant elk cow hen pig ram sow yak emu ape bat eel fly gnu hog jay koi"

/-- The same tokens under different casing and punctuation. -/
def kw22b : String :=
  "CAT; dog fox owl bee ant elk cow hen pig ram sow yak emu ape bat eel fly gnu hog jay KOI!"

/-! ## Theorems -/

/-- Soundness of the word-run scanner, for any fuel: every run consists of
word characters and occurs contiguously in the input. -/
theorem mem_wordRunsF : ∀ {fuel : Nat} {l r : List Char}, r ∈ wordRunsF fuel l →
    (∀ c ∈ r, isWordChar c) ∧ r <:+: l := by
  intro fuel
  induction fuel with
  | zero => intro l r h; simp [wordRunsF] at h
  | succ fuel ih =>
    intro l r h
    match l with
    | [] => simp [wordRunsF] at h
    | c :: cs =>
      cases hw : isWordChar c with
      | true =>
        simp only [wordRunsF, hw, if_pos] at h
        rcases List.mem_cons.mp h with hr | hr
        · subst hr
          refine ⟨fun x hx => List.mem_takeWhile_imp hx, ?_⟩
          exact ( List.takeWhile_prefix _).isInfix
        · obtain ⟨h1, h2⟩ := ih hr
          refine ⟨h1, h2.trans ?_⟩
          exact ((List.dropWhile_suffix _).trans (List.suffix_cons c cs)).isInfix
      | false =>
        simp only [wordRunsF, hw, Bool.false_eq_true, if_false] at h
        obtain ⟨h1, h2⟩ := ih h
        exact ⟨h1, h2.trans (List.suffix_cons c cs).isInfix⟩

/-- Every surviving keyword is a long-enough alphabetic token of the
lower-cased text and is not a stop word. -/
theorem extract_keywords_mem (t : List Char) {w : List Char}
    (hw : w ∈ extract_keywords t) :
    3 ≤ w.length ∧ (∀ c ∈ w, c.isAlpha) ∧ w <:+: pyLower t ∧ w ∉ stop_words := by
  unfold extract_keywords at hw
  have h1 := List.mem_dedup.mp (List.Sublist.mem hw (List.take_sublist _ _))
  obtain ⟨htok, hstop⟩ := List.mem_filter.mp h1
  obtain ⟨hrun, hcond⟩ := List.mem_filter.mp htok
  obtain ⟨hlen, halpha⟩ := Bool.and_eq_true_iff.mp hcond
  refine ⟨of_decide_eq_true hlen, ?_, (mem_wordRunsF hrun).2, of_decide_eq_true hstop⟩
  exact fun c hc => List.all_eq_true.mp halpha c hc

/-- C5: for every input text, `extract_keywords` returns at most 20 distinct
strings, each an alphabetic token of length at least 3 occurring in the
lower-cased input and not in the stop-word set; the empty text yields the
empty list.  (Totality is intrinsic: the embedding is a Lean function.) -/
theorem extract_keywords_spec (t : List Char) :
    (extract_keywords t).length ≤ 20 ∧
    (extract_keywords t).Nodup ∧
    extract_keywords [] = [] ∧
    ∀ w ∈ extract_keywords t,
      3 ≤ w.length ∧ (∀ c ∈ w, c.isAlpha) ∧ w <:+: pyLower t ∧ w ∉ stop_words := by
  refine ⟨?_, ?_, rfl, fun w hw => extract_keywords_mem t hw⟩
  · unfold extract_keywords
    simp [List.length_take]
  · exact List.Nodup.sublist (List.take_sublist _ _) (List.nodup_dedup _)

/-- Witness for C5 at a concrete text and keyword. -/
theorem extract_keywords_spec_witness :
    "cats".toList ∈ extract_keywords "the cats and dogs".toList ∧
    (3 ≤ "cats".toList.length ∧ (∀ c ∈ "cats".toList, c.isAlpha) ∧
      "cats".toList <:+: pyLower "the cats and dogs".toList ∧
      "cats".toList ∉ stop_words) :=
  ⟨by decide,
   (extract_keywords_spec "the cats and dogs".toList).2.2.2 "cats".toList (by decide)⟩

/-- C9: the keyword extractor is a pure function of the candidate token
sequence of its input — two invocations whose inputs tokenize identically
(in particular, two invocations on the same input) return the same result,
also when more than 20 unique candidate tokens exist. -/
theorem extract_keywords_deterministic (s t : List Char)
    (h : tokenize s = tokenize t) :
    extract_keywords s = extract_keywords t := by
  unfold extract_keywords
  rw [h]

set_option maxHeartbeats 1600000 in
/-- Witness for C9 on inputs with 22 unique candidate tokens (truncation to
20 really happens, and the two results still agree). -/
theorem extract_keywords_deterministic_witness :
    tokenize kw22a.toList = tokenize kw22b.toList ∧
    (((tokenize kw22a.toList).filter (fun w => decide (w ∉ stop_words))).dedup).length = 22 ∧
    (extract_keywords kw22a.toList).length = 20 ∧
    extract_keywords kw22a.toList = extract_keywords kw22b.toList :=
  ⟨by decide, by decide, by decide, extract_keywords_deterministic _ _ (by decide)⟩

/-- After an `INSERT OR REPLACE`, the rows carrying the inserted key are
exactly the one freshly written row, whatever the store held before. -/
theorem filter_insert_or_replace (store : List Row) (r : Record) (now : Nat) :
    (insert_or_replace store r now).filter
      (fun row => row.standard_id == r.standard_id) = [rowOfRecord r now] := by
  unfold insert_or_replace
  rw [List.filter_append, List.filter_filter]
  have h0 : (fun (row : Row) =>
      (row.standard_id == r.standard_id) && !(row.standard_id == r.standard_id)) =
      fun _ => false := by
    funext row
    cases h : (row.standard_id == r.standard_id) <;> simp [h]
  rw [h0, List.filter_false]
  simp [rowOfRecord]

/-- C4: upsert is idempotent last-write-wins.  For two records sharing a
`standard_id`, upserting both — in one batch or in two successive runs —
leaves exactly one row with that id, and that row is built entirely from
the later record (`rowOfRecord r2`), for any prior store contents. -/
theorem upsert_last_write_wins (w1 w2 : World) (store : List Row) (r1 r2 : Record)
    (_hid : r1.standard_id = r2.standard_id)
    (h1 : ∀ r, w1.upsertFail r = false) (h2 : ∀ r, w2.upsertFail r = false) :
    (save_standards_to_db w2 store [r1, r2]).filter
        (fun row => row.standard_id == r2.standard_id) = [rowOfRecord r2 w2.now] ∧
    (save_standards_to_db w2 (save_standards_to_db w1 store [r1]) [r2]).filter
        (fun row => row.standard_id == r2.standard_id) = [rowOfRecord r2 w2.now] := by
  constructor
  · simp only [save_standards_to_db, List.isEmpty_cons, List.foldl_cons, List.foldl_nil,
      h1, h2, if_false, Bool.false_eq_true]
    exact filter_insert_or_replace _ r2 w2.now
  · simp only [save_standards_to_db, List.isEmpty_cons, List.foldl_cons, List.foldl_nil,
      h1, h2, if_false, Bool.false_eq_true]
    exact filter_insert_or_replace _ r2 w2.now

/-- Witness for C4: replaying the same id with new field values, in one
batch and across two runs, leaves the single fresh row. -/
theorem upsert_last_write_wins_witness :
    recOld.standard_id = recNew.standard_id ∧
    (save_standards_to_db worldTransport [] [recOld, recNew]).filter
        (fun row => row.standard_id == recNew.standard_id) = [rowOfRecord recNew 0] ∧
    (save_standards_to_db worldTransport
        (save_standards_to_db worldTransport [] [recOld]) [recNew]).filter
        (fun row => row.standard_id == recNew.standard_id) = [rowOfRecord recNew 0] := by
  have h := upsert_last_write_wins worldTransport worldTransport [] recOld recNew rfl
    (fun _ => rfl) (fun _ => rfl)
  exact ⟨rfl, h.1, h.2⟩

/-- C10: the upsert writes only the 7 listed columns, so the replacing row
has the schema defaults everywhere else — `state = 'FL'`, `created_at` the
insert time, and NULL for domain, cluster and clarifications; prior values
are never preserved, and every row of the store keeps `state = 'FL'`. -/
theorem replace_resets_unlisted_columns (store : List Row) (r : Record) (t : Nat)
    (hFL : ∀ row ∈ store, row.state = some "FL") :
    (∀ row ∈ insert_or_replace store r t, row.state = some "FL") ∧
    (insert_or_replace store r t).filter
        (fun row => row.standard_id == r.standard_id) = [rowOfRecord r t] ∧
    (rowOfRecord r t).state = some "FL" ∧
    (rowOfRecord r t).domain = none ∧
    (rowOfRecord r t).cluster = none ∧
    (rowOfRecord r t).clarifications = none ∧
    (rowOfRecord r t).created_at = t := by
  refine ⟨?_, filter_insert_or_replace store r t, rfl, rfl, rfl, rfl, rfl⟩
  intro row hrow
  unfold insert_or_replace at hrow
  rcases List.mem_append.mp hrow with h | h
  · exact hFL row (List.mem_of_mem_filter h)
  · rw [List.mem_singleton.mp h]
    rfl

/-- Witness for C10: replacing a row that carried domain, cluster and
clarification values yields a row with those columns NULL and a fresh
timestamp. -/
theorem replace_resets_unlisted_columns_witness :
    rowRich.domain = some "Algebraic Reasoning" ∧
    (insert_or_replace [rowRich] recNew 7).filter
        (fun row => row.standard_id == recNew.standard_id) = [rowOfRecord recNew 7] ∧
    (rowOfRecord recNew 7).domain = none ∧
    (rowOfRecord recNew 7).clarifications = none ∧
    (rowOfRecord recNew 7).created_at = 7 := by
  have h := replace_resets_unlisted_columns [rowRich] recNew 7 (by decide)
  exact ⟨rfl, h.2.1, h.2.2.2.1, h.2.2.2.2.2.1, h.2.2.2.2.2.2⟩

/-- C3 amended: the fixed rate-limiting delay is executed exactly once when
the unit's fetch and parse succeed, and not at all when the fetch raises —
the `time.sleep` sits inside the `try`, after the fetch. -/
theorem rate_limit_on_success_only (f : String → String → FetchResult) (s g : String) :
    (∀ items, f s g = .ok items → (scrape_standards_by_subject_grade f s g).2 = 1) ∧
    (∀ msg, f s g = .transportError msg →
      (scrape_standards_by_subject_grade f s g).2 = 0) ∧
    (∀ msg, f s g = .parseError msg →
      (scrape_standards_by_subject_grade f s g).2 = 0) := by
  refine ⟨fun items h => ?_, fun msg h => ?_, fun msg h => ?_⟩ <;>
    simp [scrape_standards_by_subject_grade, h]

/-- Witness for the amended C3 at a concrete successful fetch. -/
theorem rate_limit_on_success_only_witness :
    (scrape_standards_by_subject_grade (fun _ _ => .ok [itemGood]) "Mathematics" "3").2 = 1 :=
  (rate_limit_on_success_only (fun _ _ => .ok [itemGood]) "Mathematics" "3").1
    [itemGood] rfl

/-- Counterexample to C3 as stated: a unit whose fetch raises a transport
error performs zero delays, not one. -/
theorem rate_limit_skipped_cex :
    (scrape_standards_by_subject_grade worldTransport.fetch "Mathematics" "3").2 = 0 ∧
    ¬ (scrape_standards_by_subject_grade worldTransport.fetch "Mathematics" "3").2 = 1 :=
  ⟨rfl, by decide⟩

/-- C1 amended: a transport error is caught inside the scrape function, so
the unit yields zero records and the run logs exactly one `no_data` entry
(count 0, notes "No standards found") — not an `error` entry — and nothing
propagates out of the run. -/
theorem transport_error_logged_no_data (w : World) (db : DB) (s g msg : String)
    (hf : w.fetch s g = .transportError msg)
    (hlog : ∀ e, w.logFail e = none) :
    unitStep w db s g = .ok (appendLog db (noDataEntry s g), 0) ∧
    collect_all_standards w [s] [g] db = .ok (appendLog db (noDataEntry s g), 0) := by
  have h1 : unitStep w db s g = .ok (appendLog db (noDataEntry s g), 0) := by
    simp [unitStep, tryBody, scrape_standards_by_subject_grade, hf, hlog]
  refine ⟨h1, ?_⟩
  simp [collect_all_standards, unitPairs, collectGo, h1]

/-- Witness for the amended C1 on a concrete transport-failing world. -/
theorem transport_error_logged_no_data_witness :
    worldTransport.fetch "Mathematics" "3" = .transportError "connection refused" ∧
    unitStep worldTransport dbEmpty "Mathematics" "3" =
      .ok (appendLog dbEmpty (noDataEntry "Mathematics" "3"), 0) :=
  ⟨rfl, (transport_error_logged_no_data worldTransport dbEmpty "Mathematics" "3"
      "connection refused" rfl (fun _ => rfl)).1⟩

/-- Counterexample to C1 as stated: the transport-failing run records a
`no_data` entry with notes "No standards found"; no entry has status
`error` and no entry carries the exception message. -/
theorem transport_error_not_logged_error_cex :
    collect_all_standards worldTransport ["Mathematics"] ["3"] dbEmpty =
      .ok (⟨[], [⟨"Mathematics", "3", "no_data", 0, "No standards found"⟩]⟩, 0) ∧
    ([(⟨"Mathematics", "3", "no_data", 0, "No standards found"⟩ : LogEntry)].countP
        (fun e => e.status == "error")) = 0 :=
  ⟨rfl, rfl⟩

/-- When no log insert fails, one unit appends exactly its `unitEntry` and
returns normally. -/
theorem unitStep_log (w : World) (db : DB) (s g : String)
    (hlog : ∀ e, w.logFail e = none) :
    ∃ db1 n, unitStep w db s g = .ok (db1, n) ∧
      db1.log = db.log ++ [unitEntry w s g] := by
  unfold unitStep tryBody unitEntry
  simp only [hlog]
  cases hs : (scrape_standards_by_subject_grade w.fetch s g).1 with
  | error msg => exact ⟨_, _, rfl, rfl⟩
  | ok standards =>
    cases he : standards.isEmpty with
    | true =>
      simp only [he]
      exact ⟨_, _, rfl, rfl⟩
    | false =>
      simp only [he]
      exact ⟨_, _, rfl, rfl⟩

/-- When no log insert fails, a run appends exactly one `unitEntry` per
iterated pair, in iteration order. -/
theorem collectGo_log (w : World) (hlog : ∀ e, w.logFail e = none) :
    ∀ (ps : List (String × String)) (db : DB) (total : Nat),
      ∃ db1 tot, collectGo w ps db total = .ok (db1, tot) ∧
        db1.log = db.log ++ ps.map (fun p => unitEntry w p.1 p.2) := by
  intro ps
  induction ps with
  | nil => intro db total; exact ⟨db, total, rfl, by simp⟩
  | cons p ps ih =>
    intro db total
    obtain ⟨db1, n, h1, hl1⟩ := unitStep_log w db p.1 p.2 hlog
    obtain ⟨db2, tot, h2, hl2⟩ := ih db1 (total + n)
    refine ⟨db2, tot, ?_, ?_⟩
    · simp [collectGo, h1, h2]
    · rw [hl2, hl1]
      simp

/-- A unit's log entry always carries the unit's own subject and grade. -/
theorem unitEntry_fields (w : World) (s g : String) :
    (unitEntry w s g).subject = s ∧ (unitEntry w s g).grade = g := by
  unfold unitEntry
  cases (scrape_standards_by_subject_grade w.fetch s g).1 with
  | error msg => exact ⟨rfl, rfl⟩
  | ok standards =>
    cases he : standards.isEmpty <;> simp only [he] <;> exact ⟨rfl, rfl⟩

/-- No pair of the cross-product mentions a subject outside the input list. -/
theorem countP_unitPairs_zero (s g : String) (grades : List String) :
    ∀ subjects : List String, s ∉ subjects →
      (unitPairs subjects grades).countP
        (fun p => decide (p.1 = s) && decide (p.2 = g)) = 0 := by
  intro subjects
  induction subjects with
  | nil => intro _; rfl
  | cons t ss ih =>
    intro hns
    have hts : ¬(t = s) := fun h => hns (h ▸ List.mem_cons_self t ss)
    unfold unitPairs
    rw [List.countP_append, ih (fun h => hns (List.mem_cons_of_mem t h)),
      List.countP_map]
    simp [Function.comp, hts]

/-- Each pair of distinct focus lists occurs exactly once in the
cross-product. -/
theorem countP_unitPairs_one (s g : String) (grades : List String)
    (hg : grades.Nodup) (hmg : g ∈ grades) :
    ∀ subjects : List String, subjects.Nodup → s ∈ subjects →
      (unitPairs subjects grades).countP
        (fun p => decide (p.1 = s) && decide (p.2 = g)) = 1 := by
  intro subjects
  induction subjects with
  | nil => intro _ hms; cases hms
  | cons t ss ih =>
    intro hs hms
    unfold unitPairs
    rw [List.countP_append, List.countP_map]
    rcases List.mem_cons.mp hms with rfl | hmem
    · rw [countP_unitPairs_zero s g grades ss (List.nodup_cons.mp hs).1]
      have hfun : ((fun p : String × String => decide (p.1 = s) && decide (p.2 = g)) ∘
          fun gr => (s, gr)) = fun gr => gr == g := by
        funext gr
        simp [Function.comp]
        exact (Bool.beq_eq_decide_eq gr g).symm
      rw [hfun]
      have : grades.countP (fun gr => gr == g) = grades.count g := rfl
      rw [this, List.count_eq_one_of_mem hg hmg]
    · have hts : ¬(t = s) :=
        fun h => (List.nodup_cons.mp hs).1 (h ▸ hmem)
      have hfun : ((fun p : String × String => decide (p.1 = s) && decide (p.2 = g)) ∘
          fun gr => (t, gr)) = fun _ => false := by
        funext gr
        simp [Function.comp, hts]
      rw [hfun]
      simp only [List.countP_false, Function.const_apply, Nat.zero_add]
      exact ih (List.nodup_cons.mp hs).2 hmem

/-- C2: with healthy log persistence, one invocation of
`collect_all_standards` over duplicate-free focus lists appends exactly one
log entry per (subject, grade) pair of the cross-product, whatever each
unit's outcome. -/
theorem one_log_entry_per_pair (w : World) (subjects grades : List String) (db0 : DB)
    (s g : String)
    (hlog : ∀ e, w.logFail e = none)
    (hs : subjects.Nodup) (hg : grades.Nodup)
    (hms : s ∈ subjects) (hmg : g ∈ grades) :
    (collect_all_standards w subjects grades db0).toOption.map
      (fun res => (res.1.log.drop db0.log.length).countP
        (fun e => decide (e.subject = s) && decide (e.grade = g))) = some 1 := by
  obtain ⟨db1, tot, h1, hl1⟩ := collectGo_log w hlog (unitPairs subjects grades) db0 0
  rw [collect_all_standards, h1]
  simp only [Except.toOption, Option.map]
  rw [hl1, List.drop_left, List.countP_map]
  have hfun : ((fun e : LogEntry => decide (e.subject = s) && decide (e.grade = g)) ∘
      fun p : String × String => unitEntry w p.1 p.2) =
      fun p : String × String => decide (p.1 = s) && decide (p.2 = g) := by
    funext p
    rw [Function.comp_apply, (unitEntry_fields w p.1 p.2).1, (unitEntry_fields w p.1 p.2).2]
  rw [hfun, countP_unitPairs_one s g grades hg hmg subjects hs hms]

/-- Witness for C2 on a concrete one-unit run. -/
theorem one_log_entry_per_pair_witness :
    (collect_all_standards worldTransport ["Mathematics"] ["3"] dbEmpty).toOption.map
      (fun res => (res.1.log.drop dbEmpty.log.length).countP
        (fun e => decide (e.subject = "Mathematics") && decide (e.grade = "3"))) = some 1 :=
  one_log_entry_per_pair worldTransport ["Mathematics"] ["3"] dbEmpty
    "Mathematics" "3" (fun _ => rfl) (by decide) (by decide) (by decide) (by decide)

/-- C6: an item missing identifier, title or description yields no record
and is silently skipped; a unit delivering one valid and one such invalid
item yields exactly the one valid record. -/
theorem invalid_item_skipped (s g : String) (bad good : Item) (r : Record)
    (f : String → String → FetchResult)
    (hbad : bad.standard_id = none ∨ bad.title = none ∨ bad.description = none)
    (hgood : extract_standard_data s g good = some r)
    (hf : f s g = .ok [good, bad]) :
    extract_standard_data s g bad = none ∧
    (scrape_standards_by_subject_grade f s g).1 = .ok [r] := by
  have hb : extract_standard_data s g bad = none := by
    obtain ⟨i, t, d, u⟩ := bad
    cases i <;> cases t <;> cases d <;> simp_all [extract_standard_data]
  refine ⟨hb, ?_⟩
  simp [scrape_standards_by_subject_grade, hf, List.filterMap_cons, hgood, hb]

/-- Witness for C6: a title-less item next to a well-formed one. -/
theorem invalid_item_skipped_witness :
    itemBad.title = none ∧
    extract_standard_data "Mathematics" "3" itemBad = none ∧
    (scrape_standards_by_subject_grade (fun _ _ => .ok [itemGood, itemBad])
      "Mathematics" "3").1 = .ok [recGood] := by
  have h := invalid_item_skipped "Mathematics" "3" itemBad itemGood recGood
    (fun _ _ => .ok [itemGood, itemBad]) (Or.inr (Or.inl rfl)) rfl rfl
  exact ⟨rfl, h.1, h.2⟩

/-- C7 amended: a failing success-branch or no_data-branch log insert is
caught by the unit handler and re-attempted as an `error` entry; the unit
propagates an exception only when that error-branch insert itself fails,
and a failing per-record upsert is caught with the batch proceeding. -/
theorem log_failure_policy (w : World) (db : DB) (s g : String) (items : List Item)
    (msgL msgN : String) (store : List Row) (r1 r2 : Record) :
    (w.fetch s g = .ok items →
      items.filterMap (extract_standard_data s g) ≠ [] →
      w.logFail (successEntry s g
        (items.filterMap (extract_standard_data s g)).length) = some msgL →
      (w.logFail (errEntry s g msgL) = none →
        unitStep w db s g =
          .ok (⟨save_standards_to_db w db.standards
                  (items.filterMap (extract_standard_data s g)),
                db.log ++ [errEntry s g msgL]⟩,
               (items.filterMap (extract_standard_data s g)).length)) ∧
      (∀ msg2, w.logFail (errEntry s g msgL) = some msg2 →
        unitStep w db s g = .error msg2)) ∧
    (w.fetch s g = .ok items →
      items.filterMap (extract_standard_data s g) = [] →
      w.logFail (noDataEntry s g) = some msgN →
      (w.logFail (errEntry s g msgN) = none →
        unitStep w db s g = .ok (appendLog db (errEntry s g msgN), 0)) ∧
      (∀ msg2, w.logFail (errEntry s g msgN) = some msg2 →
        unitStep w db s g = .error msg2)) ∧
    ((∀ msg, w.logFail (errEntry s g msg) = none) →
      ∀ e, unitStep w db s g ≠ .error e) ∧
    (w.upsertFail r1 = true → w.upsertFail r2 = false →
      save_standards_to_db w store [r1, r2] = insert_or_replace store r2 w.now) := by
  refine ⟨fun hf hne hlogS => ?_, fun hf hemp hlogN => ?_, fun hE e => ?_,
    fun hup1 hup2 => ?_⟩
  · have hne' : (items.filterMap (extract_standard_data s g)).isEmpty = false :=
      List.isEmpty_eq_false.mpr hne
    have hstep : tryBody w db s g =
        ((⟨save_standards_to_db w db.standards
            (items.filterMap (extract_standard_data s g)), db.log⟩,
          (items.filterMap (extract_standard_data s g)).length), some msgL) := by
      simp [tryBody, scrape_standards_by_subject_grade, hf, hne', hlogS]
    exact ⟨fun h => by simp [unitStep, hstep, h, appendLog],
           fun msg2 h => by simp [unitStep, hstep, h]⟩
  · have hstep : tryBody w db s g = ((db, 0), some msgN) := by
      simp [tryBody, scrape_standards_by_subject_grade, hf, hemp, hlogN]
    exact ⟨fun h => by simp [unitStep, hstep, h, appendLog],
           fun msg2 h => by simp [unitStep, hstep, h]⟩
  · unfold unitStep
    rcases htb : tryBody w db s g with ⟨⟨db1, n⟩, opt⟩
    cases opt with
    | none => simp
    | some msg => simp [hE]
  · simp [save_standards_to_db, hup1, hup2]

/-- Witness for the amended C7: a failing success-branch append (with a
saved record) and a failing no_data-branch append are both re-routed into
an `error` entry with the unit returning normally, and the failing upsert
of one record leaves the batch's other record saved. -/
theorem log_failure_policy_witness :
    worldLogFlaky.logFail (successEntry "Mathematics" "3" 1) = some "log write failed" ∧
    unitStep worldLogFlaky dbEmpty "Mathematics" "3" =
      .ok (⟨[rowOfRecord recGood 0], [errEntry "Mathematics" "3" "log write failed"]⟩, 1) ∧
    worldNoDataFlaky.logFail (noDataEntry "Mathematics" "3") = some "log write failed" ∧
    unitStep worldNoDataFlaky dbEmpty "Mathematics" "3" =
      .ok (appendLog dbEmpty (errEntry "Mathematics" "3" "log write failed"), 0) ∧
    save_standards_to_db worldLogFlaky [] [recBad, recGood] =
      insert_or_replace [] recGood 0 := by
  have h1 := log_failure_policy worldLogFlaky dbEmpty "Mathematics" "3" [itemGood]
    "log write failed" "unused" [] recBad recGood
  have h2 := log_failure_policy worldNoDataFlaky dbEmpty "Mathematics" "3" []
    "unused" "log write failed" [] recBad recGood
  exact ⟨rfl, (h1.1 rfl (by decide) rfl).1 rfl, rfl,
    (h2.2.1 rfl rfl rfl).1 rfl, h1.2.2.2 rfl rfl⟩

/-- Counterexample to C7 as stated: the success-branch log insert fails,
yet the run returns normally — the failure is converted into an `error`
entry instead of propagating. -/
theorem log_failure_swallowed_cex :
    collect_all_standards worldLogFlaky ["Mathematics"] ["3"] dbEmpty =
      .ok (⟨[rowOfRecord recGood 0], [errEntry "Mathematics" "3" "log write failed"]⟩, 1) :=
  rfl

/-- Documents that do not match the jurisdiction filter are skipped by the
loop without touching its state. -/
theorem apiGo_skips (w : ApiWorld) :
    ∀ docs0 : List CfDoc, (∀ d ∈ docs0, containsSub d.title "Florida" = false) →
      ∀ ds acc, apiGo w (docs0 ++ ds) acc = apiGo w ds acc := by
  intro docs0
  induction docs0 with
  | nil => intro _ ds acc; rfl
  | cons d0 rest ih =>
    intro h ds acc
    have h0 : containsSub d0.title "Florida" = false := h d0 (List.mem_cons_self d0 rest)
    show apiGo w (d0 :: (rest ++ ds)) acc = apiGo w ds acc
    unfold apiGo
    simp only [h0, Bool.false_eq_true, if_false]
    rw [ih (fun d1 hd1 => h d1 (List.mem_cons_of_mem d0 hd1)) ds acc]
    cases ds <;> rfl

/-- C8 amended: a request failure fetching the top-level document list is
caught and the API collection returns the empty list; a request failure
fetching the first matching document's item list is likewise caught by the
collection-wide handler and aborts the entire API collection (returning
the empty list, with no later document processed), not that branch only —
while a successfully fetched non-empty item list raises the missing-method
`AttributeError` out of `get_standards_via_api` to the caller. -/
theorem api_failure_aborts_whole_collection (w : ApiWorld) :
    (∀ msg, w.getDocuments = .error msg → get_standards_via_api w = .ok []) ∧
    (∀ docs0 d ds m, w.getDocuments = .ok (docs0 ++ d :: ds) →
      (∀ d1 ∈ docs0, containsSub d1.title "Florida" = false) →
      containsSub d.title "Florida" = true →
      w.getItems d.identifier = .error m →
      get_standards_via_api w = .ok []) ∧
    (∀ docs0 d ds it its, w.getDocuments = .ok (docs0 ++ d :: ds) →
      (∀ d1 ∈ docs0, containsSub d1.title "Florida" = false) →
      containsSub d.title "Florida" = true →
      w.getItems d.identifier = .ok (it :: its) →
      get_standards_via_api w = .error attributeErrorMsg) := by
  refine ⟨fun msg h => ?_, fun docs0 d ds m h hskip hfl hit => ?_,
    fun docs0 d ds it its h hskip hfl hit => ?_⟩
  · simp [get_standards_via_api, h]
  · simp only [get_standards_via_api, h]
    rw [apiGo_skips w docs0 hskip]
    unfold apiGo
    simp only [hfl, if_true, hit]
  · simp only [get_standards_via_api, h]
    rw [apiGo_skips w docs0 hskip]
    unfold apiGo
    simp only [hfl, if_true, hit]
    rfl

/-- Witness for the amended C8: with the failing document first, the whole
collection silently collapses to the empty list; with the item-bearing
document first, the `AttributeError` escapes to the caller. -/
theorem api_failure_aborts_whole_collection_witness :
    apiWorldFlaky2.getItems "D2" = .error "timeout" ∧
    get_standards_via_api apiWorldFlaky2 = .ok [] ∧
    apiWorldFlaky.getItems "D1" = .ok [caseItem1] ∧
    get_standards_via_api apiWorldFlaky = .error attributeErrorMsg := by
  have h2 := (api_failure_aborts_whole_collection apiWorldFlaky2).2.1
    [] ⟨"Florida ELA Standards", "D2"⟩ [⟨"Florida Mathematics Standards", "D1"⟩]
    "timeout" rfl (fun d1 hd1 => absurd hd1 (List.not_mem_nil d1)) (by decide) rfl
  have h3 := (api_failure_aborts_whole_collection apiWorldFlaky).2.2
    [] ⟨"Florida Mathematics Standards", "D1"⟩ [⟨"Florida ELA Standards", "D2"⟩]
    caseItem1 [] rfl (fun d1 hd1 => absurd hd1 (List.not_mem_nil d1)) (by decide) rfl
  exact ⟨rfl, h2, rfl, h3⟩

/-- Counterexample to C8 as stated: an item-list request failure does not
abort one branch only — with the failing document first the run returns
the empty list without visiting the other document, and with the
item-bearing document first the run does raise to the caller, since
parsing any item hits the missing `extract_keywords` method before the
other document's failing fetch is even issued. -/
theorem api_branch_failure_cex :
    get_standards_via_api apiWorldFlaky2 = .ok [] ∧
    get_standards_via_api apiWorldFlaky = .error attributeErrorMsg :=
  ⟨rfl, rfl⟩

end Cpalms
